import Mathlib

/-!
Shallow embedding of `verify_logs.py`, a log-order verifier.

The program scans a log file line by line, extracts a leading
`YYYY-MM-DD HH:MM:SS` timestamp via a regular expression, parses it with
`datetime.strptime`, counts lines whose timestamp is strictly earlier than
the previously parsed timestamp, and exits 0 iff no such violation occurred.
A file-resolution step precedes the scan: if the literal path argument does
not exist, the latest-created file matching `<path>.*` is targeted instead.

Modelling notes:
- Console output is modelled abstractly as a list of `Msg` events carrying
  the payload of the corresponding `print` call; `sys.exit` codes are the
  second component of the result pair.
- The regex class `\d` is modelled as the ASCII digits 0-9 (the `re.ASCII`
  abstraction of the source's Unicode digit class).
- `datetime.strptime(s, "%Y-%m-%d %H:%M:%S")` succeeds exactly on shape-
  matching strings whose fields are a valid Gregorian date-time with
  1 <= year <= 9999 (year 0000 is rejected by `datetime`), and fails with
  `ValueError` otherwise; both failure modes (the internal regex of
  `_strptime` and the `datetime` constructor) raise the same caught
  exception, so they are modelled as a single `Option` failure.
- `datetime` comparison is chronological; on field-valid values it agrees
  with the numeric key `DateTime.key` used here.
- The filesystem is abstract: a list of (path, file-type) entries with a
  creation-time map and a contents map.  `os.path.exists p` is "some entry
  has path `p`"; `glob.glob(p + ".*")` is the entries whose path extends
  `p ++ "."` (glob metacharacter corner cases are outside the model).
-/

/-- A parsed timestamp: the six fields of `%Y-%m-%d %H:%M:%S`. -/
structure DateTime where
  year : Nat
  month : Nat
  day : Nat
  hour : Nat
  minute : Nat
  second : Nat
deriving DecidableEq

/-- Numeric encoding of a `DateTime`; on field-valid values (month <= 12,
day <= 31, hour <= 23, minute, second <= 59) comparing keys is exactly the
chronological comparison of Python `datetime` values. -/
def DateTime.key (t : DateTime) : Nat :=
  ((((t.year * 13 + t.month) * 32 + t.day) * 24 + t.hour) * 60 + t.minute) * 60 + t.second

/-- One console print event, carrying the payload of the source's f-string. -/
inductive Msg where
  | checking (filename : String)
  | violation (line_num : Nat) (last_dt current_dt : DateTime) (stripped : String)
  | parseError (line_num : Nat)
  | success
  | failed (errors : Nat)
  | usage
  | targeting (path : String)
  | notFound (path : String)
deriving DecidableEq

/-- The 19-character shape of `^(\d{4}-\d{2}-\d{2} \d{2}:\d{2}:\d{2})`. -/
def tsShape : List Char → Bool
  | [y1, y2, y3, y4, s1, mo1, mo2, s2, d1, d2, sp, h1, h2, c1, mi1, mi2, c2, se1, se2] =>
    y1.isDigit && y2.isDigit && y3.isDigit && y4.isDigit && s1 == '-' &&
    mo1.isDigit && mo2.isDigit && s2 == '-' && d1.isDigit && d2.isDigit &&
    sp == ' ' && h1.isDigit && h2.isDigit && c1 == ':' &&
    mi1.isDigit && mi2.isDigit && c2 == ':' && se1.isDigit && se2.isDigit
  | _ => false

/-- `timestamp_pattern.match(line)`: the anchored regex either captures the
first 19 characters of the line (when they have the timestamp shape) or
fails.  No leading whitespace is tolerated. -/
def timestampMatch (line : String) : Option String :=
  let cs := line.data.take 19
  if tsShape cs then some (String.mk cs) else none

def digitVal (c : Char) : Nat := c.toNat - 48

/-- Gregorian leap-year rule, as used by `datetime`. -/
def isLeapYear (y : Nat) : Bool := (y % 4 == 0 && y % 100 != 0) || y % 400 == 0

def daysInMonth (y m : Nat) : Nat :=
  if m = 2 then (if isLeapYear y then 29 else 28)
  else if m = 4 ∨ m = 6 ∨ m = 9 ∨ m = 11 then 30
  else 31

/-- `datetime.strptime(s, "%Y-%m-%d %H:%M:%S")`, returning `none` exactly
when the call raises `ValueError`. -/
def strptime (s : String) : Option DateTime :=
  if tsShape s.data then
    match s.data with
    | [y1, y2, y3, y4, _, mo1, mo2, _, d1, d2, _, h1, h2, _, mi1, mi2, _, se1, se2] =>
      let y := 1000 * digitVal y1 + 100 * digitVal y2 + 10 * digitVal y3 + digitVal y4
      let mo := 10 * digitVal mo1 + digitVal mo2
      let d := 10 * digitVal d1 + digitVal d2
      let h := 10 * digitVal h1 + digitVal h2
      let mi := 10 * digitVal mi1 + digitVal mi2
      let se := 10 * digitVal se1 + digitVal se2
      if 1 ≤ y ∧ 1 ≤ mo ∧ mo ≤ 12 ∧ 1 ≤ d ∧ d ≤ daysInMonth y mo ∧
         h ≤ 23 ∧ mi ≤ 59 ∧ se ≤ 59 then
        some ⟨y, mo, d, h, mi, se⟩
      else none
    | _ => none
  else none

/-- The two regex-then-parse stages composed: the successfully parsed leading
timestamp of a line, if any. -/
def parseLine (line : String) : Option DateTime :=
  (timestampMatch line).bind strptime

/-- Substring containment on character lists (Python's `needle in hay`). -/
def listContainsSub (needle : List Char) : List Char → Bool
  | [] => needle.isEmpty
  | c :: rest => needle.isPrefixOf (c :: rest) || listContainsSub needle rest

def containsSub (hay needle : String) : Bool := listContainsSub needle.data hay.data

/-- Python's `line.strip()`: drop whitespace from both ends. -/
def stripChars (cs : List Char) : List Char :=
  ((cs.dropWhile Char.isWhitespace).reverse.dropWhile Char.isWhitespace).reverse

def pyStrip (s : String) : String := String.mk (stripChars s.data)

/-- The condition of the dead content-heuristic branch:
`"load test" not in line and "Thread" not in line`. -/
def contentHeuristic (line : String) : Bool :=
  !(containsSub line "load test") && !(containsSub line "Thread")

/-- The scan-scoped mutable state of `check_log_order`, plus the console
output produced so far. -/
structure ScanState where
  last_dt : Option DateTime
  errors : Nat
  output : List Msg
deriving DecidableEq

/-- The body of the `for line in f` loop, without the dead heuristic branch:
match the timestamp, parse it, report and count a strict decrease, update
`last_dt` on every successful parse, report a parse failure and leave the
state otherwise unchanged. -/
def processLineCore (line_num : Nat) (line : String) (s : ScanState) : ScanState :=
  match timestampMatch line with
  | none => s
  | some dt_str =>
    match strptime dt_str with
    | none => { s with output := s.output ++ [Msg.parseError line_num] }
    | some current_dt =>
      let s1 :=
        match s.last_dt with
        | some last_dt =>
          if current_dt.key < last_dt.key then
            { s with
              output := s.output ++ [Msg.violation line_num last_dt current_dt (pyStrip line)],
              errors := s.errors + 1 }
          else s
        | none => s
      { s1 with last_dt := some current_dt }

/-- The full loop body: the core, then the dead heuristic branch
`if "load test" not in line and "Thread" not in line: pass`, whose only
statement is `pass` (both arms of the conditional are the identity). -/
def processLine (line_num : Nat) (line : String) (s : ScanState) : ScanState :=
  let s1 := processLineCore line_num line s
  if contentHeuristic line then s1 else s1

def scanLines : List String → Nat → ScanState → ScanState
  | [], _, s => s
  | line :: rest, line_num, s =>
    scanLines rest (line_num + 1) (processLine (line_num + 1) line s)

/-- `scanLines` with the dead heuristic branch removed. -/
def scanLinesCore : List String → Nat → ScanState → ScanState
  | [], _, s => s
  | line :: rest, line_num, s =>
    scanLinesCore rest (line_num + 1) (processLineCore (line_num + 1) line s)

/-- The state after `check_log_order` has scanned every line of the file
(the file is given as its list of lines). -/
def scanFile (filename : String) (lines : List String) : ScanState :=
  scanLines lines 0 { last_dt := none, errors := 0, output := [Msg.checking filename] }

/-- `check_log_order(filename)`: the console output and the `sys.exit` code. -/
def check_log_order (filename : String) (lines : List String) : List Msg × Nat :=
  let s := scanFile filename lines
  if s.errors = 0 then (s.output ++ [Msg.success], 0)
  else (s.output ++ [Msg.failed s.errors], 1)

/-- `check_log_order` with the dead heuristic branch removed. -/
def check_log_order_core (filename : String) (lines : List String) : List Msg × Nat :=
  let s := scanLinesCore lines 0 { last_dt := none, errors := 0, output := [Msg.checking filename] }
  if s.errors = 0 then (s.output ++ [Msg.success], 0)
  else (s.output ++ [Msg.failed s.errors], 1)

/-- File types distinguishable by the filesystem model. -/
inductive FType where
  | regular
  | directory
  | other
deriving DecidableEq

/-- Abstract filesystem: existing paths with their types, a creation-time
map, and a contents map giving the lines of each file. -/
structure FileSystem where
  entries : List (String × FType)
  ctime : String → Nat
  contents : String → List String

/-- `os.path.exists target`: true iff any entry has this path. -/
def FileSystem.pathExists (fs : FileSystem) (p : String) : Bool :=
  fs.entries.any (fun e => e.1 == p)

/-- Spec-side notion: the path exists and is a regular file. -/
def FileSystem.isRegularFile (fs : FileSystem) (p : String) : Bool :=
  fs.entries.any (fun e => e.1 == p && e.2 == FType.regular)

/-- `glob.glob(f"{target}.*")`: the paths extending `target ++ "."`. -/
def FileSystem.globDotStar (fs : FileSystem) (p : String) : List String :=
  (fs.entries.filter (fun e => (p.data ++ ['.']).isPrefixOf e.1.data)).map (fun e => e.1)

/-- `max(candidates, key=os.path.getctime)`: the first element attaining the
maximal creation time (Python `max` replaces the champion only on a strictly
greater key), or `none` on an empty list. -/
def maxByCtime (fs : FileSystem) : List String → Option String
  | [] => none
  | c :: cs => some (cs.foldl (fun best x => if fs.ctime best < fs.ctime x then x else best) c)

/-- The file-resolution step of `__main__`: the literal path when it exists,
otherwise the latest-created `target.*` candidate, otherwise failure. -/
def resolveTarget (fs : FileSystem) (target : String) : Option String :=
  if fs.pathExists target then some target
  else maxByCtime fs (fs.globDotStar target)

/-- The `__main__` block: argument check, file resolution, scan.  `argv`
includes the script name at index 0, as `sys.argv` does.  Returns the
console output and the process exit code. -/
def mainEntry (fs : FileSystem) (argv : List String) : List Msg × Nat :=
  match argv with
  | _ :: target :: _ =>
    match resolveTarget fs target with
    | none => ([Msg.notFound target], 1)
    | some t =>
      if fs.pathExists target then check_log_order t (fs.contents t)
      else
        let r := check_log_order t (fs.contents t)
        (Msg.targeting t :: r.1, r.2)
  | _ => ([Msg.usage], 1)

/-! Specification-side derived notions used to state the claims. -/

/-- The successfully parsed timestamps of a file, in line order. -/
def parsedTimestamps (lines : List String) : List DateTime :=
  lines.filterMap parseLine

/-- Number of strict descents in a timestamp sequence, given an optional
previous value. -/
def descentsFrom : Option DateTime → List DateTime → Nat
  | _, [] => 0
  | none, t :: ts => descentsFrom (some t) ts
  | some p, t :: ts => (if t.key < p.key then 1 else 0) + descentsFrom (some t) ts

/-- Number of elements strictly smaller than their predecessor. -/
def descents (l : List DateTime) : Nat := descentsFrom none l

/-- The sequence is non-decreasing (chronologically sorted). -/
def nonDecreasing : List DateTime → Bool
  | a :: b :: rest => a.key ≤ b.key && nonDecreasing (b :: rest)
  | _ => true

/-! Helper lemmas. -/

theorem processLine_eq_core (line_num : Nat) (line : String) (s : ScanState) :
    processLine line_num line s = processLineCore line_num line s := by
  simp [processLine]

theorem scanLines_eq_core (lines : List String) : ∀ (n : Nat) (s : ScanState),
    scanLines lines n s = scanLinesCore lines n s := by
  induction lines with
  | nil => intro n s; rfl
  | cons line rest ih =>
    intro n s
    simp [scanLines, scanLinesCore, processLine_eq_core, ih]

theorem processLineCore_no_match (line_num : Nat) (line : String) (s : ScanState)
    (h : timestampMatch line = none) :
    processLineCore line_num line s = s := by
  simp [processLineCore, h]

theorem processLineCore_parse_fail (line_num : Nat) (line dt_str : String) (s : ScanState)
    (h1 : timestampMatch line = some dt_str) (h2 : strptime dt_str = none) :
    processLineCore line_num line s =
      { s with output := s.output ++ [Msg.parseError line_num] } := by
  simp [processLineCore, h1, h2]

theorem processLineCore_parse_ok_last_dt (line_num : Nat) (line dt_str : String)
    (s : ScanState) (t : DateTime)
    (h1 : timestampMatch line = some dt_str) (h2 : strptime dt_str = some t) :
    (processLineCore line_num line s).last_dt = some t := by
  simp only [processLineCore, h1, h2]

theorem processLineCore_parse_ok_errors (line_num : Nat) (line dt_str : String)
    (s : ScanState) (t : DateTime)
    (h1 : timestampMatch line = some dt_str) (h2 : strptime dt_str = some t) :
    (processLineCore line_num line s).errors =
      s.errors + (match s.last_dt with
                  | some p => if t.key < p.key then 1 else 0
                  | none => 0) := by
  simp only [processLineCore, h1, h2]
  cases s.last_dt <;> simp <;> split <;> simp

theorem parseLine_none_of_no_match (line : String) (h : timestampMatch line = none) :
    parseLine line = none := by
  simp [parseLine, h]

theorem parseLine_none_of_parse_fail (line dt_str : String)
    (h1 : timestampMatch line = some dt_str) (h2 : strptime dt_str = none) :
    parseLine line = none := by
  simp [parseLine, h1, h2]

theorem parsedTimestamps_cons_none (line : String) (rest : List String)
    (h : parseLine line = none) :
    parsedTimestamps (line :: rest) = parsedTimestamps rest := by
  simp [parsedTimestamps, List.filterMap_cons, h]

theorem parsedTimestamps_cons_some (line : String) (rest : List String) (t : DateTime)
    (h : parseLine line = some t) :
    parsedTimestamps (line :: rest) = t :: parsedTimestamps rest := by
  simp [parsedTimestamps, List.filterMap_cons, h]

theorem scanLinesCore_errors (lines : List String) : ∀ (n : Nat) (s : ScanState),
    (scanLinesCore lines n s).errors =
      s.errors + descentsFrom s.last_dt (parsedTimestamps lines) := by
  induction lines with
  | nil => intro n s; simp [scanLinesCore, parsedTimestamps, descentsFrom]
  | cons line rest ih =>
    intro n s
    rw [scanLinesCore]
    cases hm : timestampMatch line with
    | none =>
      rw [ih, processLineCore_no_match _ _ _ hm,
        parsedTimestamps_cons_none _ _ (parseLine_none_of_no_match _ hm)]
    | some dt_str =>
      cases hs : strptime dt_str with
      | none =>
        rw [ih, processLineCore_parse_fail _ _ _ _ hm hs,
          parsedTimestamps_cons_none _ _ (parseLine_none_of_parse_fail _ _ hm hs)]
      | some t =>
        have hp : parseLine line = some t := by simp [parseLine, hm, hs]
        rw [ih, processLineCore_parse_ok_errors _ _ _ _ _ hm hs,
          processLineCore_parse_ok_last_dt _ _ _ _ _ hm hs,
          parsedTimestamps_cons_some _ _ _ hp]
        cases s.last_dt with
        | none => simp [descentsFrom]
        | some p =>
          simp only [descentsFrom]
          by_cases hlt : t.key < p.key <;> simp [hlt] <;> omega

theorem scanFile_errors (filename : String) (lines : List String) :
    (scanFile filename lines).errors = descents (parsedTimestamps lines) := by
  rw [scanFile, scanLines_eq_core, scanLinesCore_errors, descents]
  simp

theorem descentsFrom_some_of_nonDecreasing :
    ∀ (l : List DateTime) (x : DateTime), nonDecreasing (x :: l) = true →
      descentsFrom (some x) l = 0 := by
  intro l
  induction l with
  | nil => intro x _; rfl
  | cons b rest ih =>
    intro x h
    rw [nonDecreasing, Bool.and_eq_true] at h
    rw [descentsFrom, ih b h.2]
    have : ¬ b.key < x.key := by
      have := of_decide_eq_true h.1
      omega
    simp [this]

theorem descents_eq_zero_of_nonDecreasing (l : List DateTime)
    (h : nonDecreasing l = true) : descents l = 0 := by
  cases l with
  | nil => rfl
  | cons x rest =>
    rw [descents, descentsFrom]
    exact descentsFrom_some_of_nonDecreasing rest x h

theorem foldl_ctime_mem (fs : FileSystem) :
    ∀ (cs : List String) (c : String),
      cs.foldl (fun best x => if fs.ctime best < fs.ctime x then x else best) c ∈ c :: cs := by
  intro cs
  induction cs with
  | nil => intro c; simp
  | cons x rest ih =>
    intro c
    rw [List.foldl_cons]
    have h := ih (if fs.ctime c < fs.ctime x then x else c)
    rw [List.mem_cons] at h
    rcases h with h | h
    · rw [h]
      by_cases hc : fs.ctime c < fs.ctime x <;> simp [hc]
    · simp [h]

theorem foldl_ctime_ge (fs : FileSystem) :
    ∀ (cs : List String) (c : String),
      fs.ctime c ≤
        fs.ctime (cs.foldl (fun best x => if fs.ctime best < fs.ctime x then x else best) c) ∧
      ∀ y ∈ cs,
        fs.ctime y ≤
          fs.ctime (cs.foldl (fun best x => if fs.ctime best < fs.ctime x then x else best) c) := by
  intro cs
  induction cs with
  | nil => intro c; simp
  | cons x rest ih =>
    intro c
    rw [List.foldl_cons]
    have h := ih (if fs.ctime c < fs.ctime x then x else c)
    refine ⟨?_, ?_⟩
    · refine le_trans ?_ h.1
      by_cases hc : fs.ctime c < fs.ctime x <;> simp [hc]
      omega
    · intro y hy
      rw [List.mem_cons] at hy
      rcases hy with hy | hy
      · subst hy
        refine le_trans ?_ h.1
        by_cases hc : fs.ctime c < fs.ctime y <;> simp [hc]
        omega
      · exact h.2 y hy

theorem maxByCtime_spec (fs : FileSystem) (cs : List String) (t : String)
    (h : maxByCtime fs cs = some t) :
    t ∈ cs ∧ ∀ x ∈ cs, fs.ctime x ≤ fs.ctime t := by
  cases cs with
  | nil => simp [maxByCtime] at h
  | cons c rest =>
    rw [maxByCtime, Option.some_inj] at h
    subst h
    have hmem := foldl_ctime_mem fs rest c
    have hge := foldl_ctime_ge fs rest c
    refine ⟨hmem, ?_⟩
    intro x hx
    rw [List.mem_cons] at hx
    rcases hx with hx | hx
    · subst hx; exact hge.1
    · exact hge.2 x hx

theorem maxByCtime_isSome (fs : FileSystem) (cs : List String) (h : cs ≠ []) :
    (maxByCtime fs cs).isSome = true := by
  cases cs with
  | nil => exact absurd rfl h
  | cons c rest => rfl

theorem globDotStar_mem_ne_self (fs : FileSystem) (target x : String)
    (hx : x ∈ fs.globDotStar target) : x ≠ target := by
  rw [FileSystem.globDotStar, List.mem_map] at hx
  obtain ⟨e, he, hex⟩ := hx
  rw [List.mem_filter] at he
  have hpfx : (target.data ++ ['.']) <+: e.1.data :=
    List.isPrefixOf_iff_prefix.mp he.2
  intro hcontra
  subst hcontra
  have hlen := hpfx.length_le
  rw [hex] at hlen
  simp at hlen

/-! Concrete inputs used by witnesses and counterexamples. -/

/-- The three-line example of the specification. -/
def exampleLines : List String :=
  ["2025-01-28 09:03:08 Thread-1 load test start",
   "2025-01-28 09:03:10 Thread-2 load test continue",
   "2025-01-28 09:03:05 Thread-3 load test anomaly"]

/-- A two-line file whose timestamps are non-decreasing. -/
def goodLines : List String :=
  ["2025-01-28 09:03:08 Thread-1 load test start",
   "2025-01-28 09:03:10 Thread-2 load test continue"]

/-- A mid-scan state: baseline 2025-01-28 09:03:08, two violations so far. -/
def stMid : ScanState :=
  { last_dt := some ⟨2025, 1, 28, 9, 3, 8⟩, errors := 2, output := [] }

/-- A mid-scan state: baseline 2025-01-28 09:03:08, one violation so far. -/
def stMid1 : ScanState :=
  { last_dt := some ⟨2025, 1, 28, 9, 3, 8⟩, errors := 1, output := [] }

/-- A mid-scan state whose baseline 2025-01-28 09:03:10 is later than the
next line's timestamp. -/
def stLate : ScanState :=
  { last_dt := some ⟨2025, 1, 28, 9, 3, 10⟩, errors := 0, output := [] }

/-- Filesystem of the spec's resolution example: `log` absent, two rotated
candidates present, `log.1700000500` created last. -/
def fsRotated : FileSystem :=
  { entries := [("log.1700000000", FType.regular), ("log.1700000500", FType.regular)],
    ctime := fun p => if p == "log.1700000500" then 1700000500 else 1700000000,
    contents := fun _ => [] }

/-- An empty filesystem. -/
def fsEmpty : FileSystem :=
  { entries := [], ctime := fun _ => 0, contents := fun _ => [] }

/-- A filesystem where `log` exists but as a directory, and a rotated
regular file `log.1` is present. -/
def fsDirAndRotated : FileSystem :=
  { entries := [("log", FType.directory), ("log.1", FType.regular)],
    ctime := fun _ => 0, contents := fun _ => [] }

/-! The claims. -/

/-- C1: for every input file whose successfully parsed timestamps are
non-decreasing, `check_log_order` records zero ordering violations, prints
the success message, and exits with status 0. -/
theorem sorted_file_reports_success (filename : String) (lines : List String)
    (h : nonDecreasing (parsedTimestamps lines) = true) :
    (scanFile filename lines).errors = 0 ∧
    check_log_order filename lines =
      ((scanFile filename lines).output ++ [Msg.success], 0) := by
  have he : (scanFile filename lines).errors = 0 := by
    rw [scanFile_errors, descents_eq_zero_of_nonDecreasing _ h]
  exact ⟨he, by simp [check_log_order, he]⟩

/-- Witness for C1 at a concrete two-line sorted file. -/
theorem sorted_file_reports_success_witness :
    (scanFile "stress.log" goodLines).errors = 0 ∧
    check_log_order "stress.log" goodLines =
      ((scanFile "stress.log" goodLines).output ++ [Msg.success], 0) :=
  sorted_file_reports_success "stress.log" goodLines (by decide)

/-- C2: the final violation count equals the number of lines whose
successfully parsed timestamp is strictly earlier than the previous
successfully parsed timestamp; a positive count makes the process exit 1;
and the spec's three-line example yields exactly one violation, at line 3
(09:03:10 follows 09:03:05), with exit code 1. -/
theorem violation_count_matches_descents :
    (∀ (filename : String) (lines : List String),
       (scanFile filename lines).errors = descents (parsedTimestamps lines)) ∧
    (∀ (filename : String) (lines : List String),
       1 ≤ descents (parsedTimestamps lines) →
       (check_log_order filename lines).2 = 1) ∧
    ((scanFile "stress.log" exampleLines).errors = 1 ∧
     Msg.violation 3 ⟨2025, 1, 28, 9, 3, 10⟩ ⟨2025, 1, 28, 9, 3, 5⟩
         "2025-01-28 09:03:05 Thread-3 load test anomaly" ∈
       (scanFile "stress.log" exampleLines).output ∧
     (check_log_order "stress.log" exampleLines).2 = 1) := by
  refine ⟨scanFile_errors, ?_, by decide, by decide, by decide⟩
  intro filename lines h
  have he := scanFile_errors filename lines
  have hne : ¬ (scanFile filename lines).errors = 0 := by omega
  simp [check_log_order, hne]

/-- Witness for C2's exit-code implication at the spec's example file. -/
theorem violation_count_matches_descents_witness :
    (check_log_order "stress.log" exampleLines).2 = 1 :=
  violation_count_matches_descents.2.1 "stress.log" exampleLines (by decide)

/-- C3: a line that does not begin with a shape-matching timestamp leaves
both the violation count and the last-seen baseline unchanged. -/
theorem untimestamped_line_no_effect (line_num : Nat) (line : String) (s : ScanState)
    (h : timestampMatch line = none) :
    (processLine line_num line s).errors = s.errors ∧
    (processLine line_num line s).last_dt = s.last_dt := by
  rw [processLine_eq_core, processLineCore_no_match _ _ _ h]
  exact ⟨rfl, rfl⟩

/-- Witness for C3 at a concrete untimestamped line and mid-scan state. -/
theorem untimestamped_line_no_effect_witness :
    (processLine 7 "connection reset by peer" stMid).errors = stMid.errors ∧
    (processLine 7 "connection reset by peer" stMid).last_dt = stMid.last_dt :=
  untimestamped_line_no_effect 7 "connection reset by peer" stMid (by decide)

/-- C4: a line whose leading text matches the timestamp shape but fails to
parse (e.g. month 13) produces a parse-error diagnostic with the line
number, leaves the baseline and the violation count unchanged, and the scan
continues with the remaining lines. -/
theorem malformed_timestamp_line_skipped (line_num : Nat) (line dt_str : String)
    (s : ScanState) (h1 : timestampMatch line = some dt_str)
    (h2 : strptime dt_str = none) :
    processLine line_num line s =
      { s with output := s.output ++ [Msg.parseError line_num] } ∧
    (processLine line_num line s).last_dt = s.last_dt ∧
    (processLine line_num line s).errors = s.errors ∧
    (∀ (rest : List String) (n : Nat) (s' : ScanState),
       scanLines (line :: rest) n s' =
         scanLines rest (n + 1) (processLine (n + 1) line s')) := by
  have h := processLineCore_parse_fail line_num line dt_str s h1 h2
  rw [processLine_eq_core, h]
  exact ⟨rfl, rfl, rfl, fun rest n s' => rfl⟩

/-- Witness for C4 at a month-13 line, including one concrete continuation
of the scan. -/
theorem malformed_timestamp_line_skipped_witness :
    processLine 2 "2025-13-01 00:00:00 rotated" stMid1 =
      { stMid1 with output := stMid1.output ++ [Msg.parseError 2] } ∧
    (processLine 2 "2025-13-01 00:00:00 rotated" stMid1).last_dt = stMid1.last_dt ∧
    (processLine 2 "2025-13-01 00:00:00 rotated" stMid1).errors = stMid1.errors ∧
    scanLines ["2025-13-01 00:00:00 rotated", "tail line"] 0 stMid1 =
      scanLines ["tail line"] (0 + 1)
        (processLine (0 + 1) "2025-13-01 00:00:00 rotated" stMid1) := by
  have h := malformed_timestamp_line_skipped 2 "2025-13-01 00:00:00 rotated"
    "2025-13-01 00:00:00" stMid1 (by decide) (by decide)
  exact ⟨h.1, h.2.1, h.2.2.1, h.2.2.2 ["tail line"] 0 stMid1⟩

/-- C5: whenever the leading timestamp of a line parses successfully, the
baseline is updated to that value, violation or not — no rollback. -/
theorem baseline_updated_on_parse (line_num : Nat) (line : String) (s : ScanState)
    (t : DateTime) (h : parseLine line = some t) :
    (processLine line_num line s).last_dt = some t := by
  rw [parseLine] at h
  obtain ⟨dt_str, hm, hs⟩ := Option.bind_eq_some.mp h
  rw [processLine_eq_core]
  exact processLineCore_parse_ok_last_dt line_num line dt_str s t hm hs

/-- Witness for C5: an out-of-order timestamp still becomes the baseline. -/
theorem baseline_updated_on_parse_witness :
    (processLine 3 "2025-01-28 09:03:05 Thread-3 load test anomaly" stLate).last_dt =
      some ⟨2025, 1, 28, 9, 3, 5⟩ :=
  baseline_updated_on_parse 3 "2025-01-28 09:03:05 Thread-3 load test anomaly" stLate
    ⟨2025, 1, 28, 9, 3, 5⟩ (by decide)

/-- C6: when the path argument does not exist but `target.*` candidates do,
resolution succeeds, the resolved file is a candidate of maximal creation
time, a targeting message is printed, and the scan proceeds on it. -/
theorem prefix_fallback_targets_latest :
    (∀ (fs : FileSystem) (target : String),
       fs.pathExists target = false → fs.globDotStar target ≠ [] →
       (resolveTarget fs target).isSome = true) ∧
    (∀ (fs : FileSystem) (prog target : String) (rest : List String) (t : String),
       fs.pathExists target = false → resolveTarget fs target = some t →
       t ∈ fs.globDotStar target ∧
       (∀ c ∈ fs.globDotStar target, fs.ctime c ≤ fs.ctime t) ∧
       mainEntry fs (prog :: target :: rest) =
         (Msg.targeting t :: (check_log_order t (fs.contents t)).1,
          (check_log_order t (fs.contents t)).2)) := by
  constructor
  · intro fs target h1 h2
    rw [resolveTarget]
    simp only [h1, Bool.false_eq_true, if_false]
    exact maxByCtime_isSome fs _ h2
  · intro fs prog target rest t h1 h2
    have hr : maxByCtime fs (fs.globDotStar target) = some t := by
      rw [resolveTarget] at h2
      simpa [h1] using h2
    have hspec := maxByCtime_spec fs _ t hr
    refine ⟨hspec.1, hspec.2, ?_⟩
    simp [mainEntry, h2, h1]

/-- Witness for C6 at the spec's rotated-log example. -/
theorem prefix_fallback_targets_latest_witness :
    (resolveTarget fsRotated "log").isSome = true ∧
    "log.1700000500" ∈ fsRotated.globDotStar "log" ∧
    fsRotated.ctime "log.1700000000" ≤ fsRotated.ctime "log.1700000500" ∧
    mainEntry fsRotated ["verify_logs.py", "log"] =
      (Msg.targeting "log.1700000500" ::
         (check_log_order "log.1700000500" (fsRotated.contents "log.1700000500")).1,
       (check_log_order "log.1700000500" (fsRotated.contents "log.1700000500")).2) := by
  have ha := prefix_fallback_targets_latest.1 fsRotated "log" (by decide) (by decide)
  have hb := prefix_fallback_targets_latest.2 fsRotated "verify_logs.py" "log" []
    "log.1700000500" (by decide) (by decide)
  exact ⟨ha, hb.1, hb.2.1 "log.1700000000" (by decide), hb.2.2⟩

/-- C7: no file argument prints the usage message and exits 1; a path with
neither an exact nor a prefix match prints a not-found message naming the
requested path and exits 1. -/
theorem cli_error_exit_codes :
    (∀ fs : FileSystem, mainEntry fs [] = ([Msg.usage], 1)) ∧
    (∀ (fs : FileSystem) (prog : String), mainEntry fs [prog] = ([Msg.usage], 1)) ∧
    (∀ (fs : FileSystem) (prog target : String) (rest : List String),
       fs.pathExists target = false → fs.globDotStar target = [] →
       mainEntry fs (prog :: target :: rest) = ([Msg.notFound target], 1)) := by
  refine ⟨fun fs => rfl, fun fs prog => rfl, ?_⟩
  intro fs prog target rest h1 h2
  simp [mainEntry, resolveTarget, h1, h2, maxByCtime]

/-- Witness for C7's not-found case on an empty filesystem. -/
theorem cli_error_exit_codes_witness :
    mainEntry fsEmpty ["verify_logs.py", "stress.log"] =
      ([Msg.notFound "stress.log"], 1) :=
  cli_error_exit_codes.2.2 fsEmpty "verify_logs.py" "stress.log" [] (by decide) (by decide)

/-- C8 counterexample: on a filesystem where `log` exists as a directory
(not a regular file), resolution still returns `log` unchanged, so
"returned unchanged exactly when a regular file" is false. -/
theorem resolve_regular_file_only_cex :
    ¬ (resolveTarget fsDirAndRotated "log" = some "log" ↔
       fsDirAndRotated.isRegularFile "log" = true) := by
  decide

/-- C8 amended: file resolution returns the path argument unchanged exactly
when the path exists at all (`os.path.exists`, any file type); an existing
non-regular path is returned unchanged rather than falling through to
prefix matching. -/
theorem resolve_unchanged_iff_path_exists (fs : FileSystem) (target : String) :
    resolveTarget fs target = some target ↔ fs.pathExists target = true := by
  constructor
  · intro h
    cases hfs : fs.pathExists target with
    | true => rfl
    | false =>
      rw [resolveTarget] at h
      rw [hfs] at h
      simp only [Bool.false_eq_true, if_false] at h
      have hmem := (maxByCtime_spec fs _ _ h).1
      exact absurd rfl (globDotStar_mem_ne_self fs target target hmem)
  · intro h
    rw [resolveTarget, h]
    simp

/-- C9: the content heuristic is dead logic: the loop body equals the loop
body with the branch removed, and the whole scan (diagnostics, count, exit
status) equals the scan of the program without the branch. -/
theorem content_heuristic_is_noop :
    (∀ (line_num : Nat) (line : String) (s : ScanState),
       processLine line_num line s = processLineCore line_num line s) ∧
    (∀ (filename : String) (lines : List String),
       check_log_order filename lines = check_log_order_core filename lines) := by
  refine ⟨processLine_eq_core, ?_⟩
  intro filename lines
  rw [check_log_order, check_log_order_core, scanFile, scanLines_eq_core]

/-- C10: only `argv[1]` is ever read: with the same first positional
argument, any extra arguments leave the output and the exit status
unchanged. -/
theorem extra_cli_args_ignored (fs : FileSystem) (prog target : String)
    (extra extra' : List String) :
    mainEntry fs (prog :: target :: extra) = mainEntry fs (prog :: target :: extra') := rfl
